import Mathlib

/-!
Shallow embedding of the request-signing and verification protocol of the
`api_auto_test` repository (`src/encrypt/sign_util.py`, `src/encrypt/encrypt_util.py`,
`src/utils/common_util.py`, `src/core/exception_handler.py`, `src/core/exceptions.py`).

Modelling decisions:
* Python parameter values occurring in this code base are text, integers or `None`
  (`PyValue`).  A Python `dict` is insertion ordered; it is embedded as an
  association list `List (String × PyValue)` in insertion order.  Real dictionaries
  never hold duplicate keys, so theorems carry `Nodup` hypotheses on the key list
  where the embedding would otherwise admit junk inputs.
* The impure primitives `time.time()` (via `generate_timestamp`) and the random
  `generate_nonce()` are injected as explicit arguments, and the MD5 / SHA-256
  hex-digest primitives from `hashlib` (external collaborators) are a `HashEnv`
  of abstract string functions.  The configuration file `config/config.yaml` is
  not part of the sources; the three fields the signing path reads from it are a
  `SignConfig` parameter.
* Python exceptions are values of `PyExc`; a fallible computation returns
  `Except (PyExc × state) (result × state)` so that in-place mutation of the
  caller's dictionary is visible on both the success and the failure path.
  `ApiAutoTestError` (hence `EncryptError`) derives from `BaseException`
  (`src/core/exceptions.py` line 6), not from `Exception`; the field
  `isExceptionSubclass` records whether an `except Exception` handler catches
  the exception.
-/

namespace ApiAutoTest

/-- A Python value as it occurs in a signing parameter map: text, integer or `None`. -/
inductive PyValue where
  | str (s : String)
  | int (n : Int)
  | none
deriving DecidableEq, Repr

/-- Python `str(value)` for the values of `PyValue` (`str(None) = "None"`,
integers print in decimal with a leading minus sign when negative). -/
def pyStr : PyValue → String
  | PyValue.str s => s
  | PyValue.int n => toString n
  | PyValue.none => "None"

/-- The Python type name of a value, as reported in `TypeError` messages. -/
def pyTypeName : PyValue → String
  | PyValue.str _ => "str"
  | PyValue.int _ => "int"
  | PyValue.none => "NoneType"

/-- A Python dict in insertion order. -/
abbrev ParamMap := List (String × PyValue)

/-- `k in d` for a Python dict. -/
def hasKey (l : ParamMap) (k : String) : Bool :=
  l.any (fun p => p.1 == k)

/-- `d[k]` for a Python dict, assuming the key is present (the callers in
`sign_util.py` guard every subscript with a membership test first; the value
returned on the unreachable missing-key branch is immaterial). -/
def dictGet (l : ParamMap) (k : String) : PyValue :=
  match l.find? (fun p => p.1 == k) with
  | some p => p.2
  | Option.none => PyValue.none

/-- `d[k] = v` for a Python dict: an existing key keeps its position and gets the
new value, a new key is appended at the end of the insertion order. -/
def dictSet (l : ParamMap) (k : String) (v : PyValue) : ParamMap :=
  if hasKey l k then l.map (fun p => if p.1 == k then (k, v) else p)
  else l ++ [(k, v)]

/-- The whitespace characters stripped by Python `str.strip()` (ASCII range;
exotic Unicode space characters do not occur in this code base). -/
def isPySpace (c : Char) : Bool :=
  c == ' ' || c == '\t' || c == '\n' || c == '\r' || c.toNat == 11 || c.toNat == 12

/-- Python `str.strip()`: drop whitespace from both ends. -/
def pyStrip (s : String) : String :=
  String.mk (((s.data.dropWhile isPySpace).reverse.dropWhile isPySpace).reverse)

/-- The skip test of `generate_sign` (`sign_util.py` line 64):
`value is None or str(value).strip() == ""`. -/
def isBlankParam : PyValue → Bool
  | PyValue.none => true
  | v => pyStrip (pyStr v) == ""

/-- Python string `<`, character by character on code points. -/
def ltCharList : List Char → List Char → Bool
  | _, [] => false
  | [], _ :: _ => true
  | a :: as, b :: bs =>
      if a.toNat < b.toNat then true
      else if b.toNat < a.toNat then false
      else ltCharList as bs

/-- Python `s1 < s2` on strings: lexicographic comparison by code point. -/
def strLt (a b : String) : Bool := ltCharList a.data b.data

/-- Key order used by `sort_dict`: ascending Python string order on the keys,
expressed as the reflexive `¬ b < a`. -/
def keyLe (a b : String × PyValue) : Prop := strLt b.1 a.1 = false

/-- The strict version of the key order. -/
def keyLt (a b : String × PyValue) : Prop := strLt a.1 b.1 = true

instance : DecidableRel keyLe := fun _ _ => inferInstanceAs (Decidable (_ = false))

instance : DecidableRel keyLt := fun _ _ => inferInstanceAs (Decidable (_ = true))

instance {ε α : Type} [DecidableEq ε] [DecidableEq α] : DecidableEq (Except ε α) := fun x y =>
  match x, y with
  | Except.ok a, Except.ok b =>
      if h : a = b then isTrue (by rw [h]) else isFalse (fun hc => h (Except.ok.inj hc))
  | Except.error a, Except.error b =>
      if h : a = b then isTrue (by rw [h]) else isFalse (fun hc => h (Except.error.inj hc))
  | Except.ok _, Except.error _ => isFalse (fun hc => Except.noConfusion hc)
  | Except.error _, Except.ok _ => isFalse (fun hc => Except.noConfusion hc)

/-- `sort_dict` (`common_util.py` lines 39-43): rebuild the dict with entries
sorted by key in ascending order.  Python's `sorted` is a stable sort; on the
duplicate-free key lists of real dictionaries every stable sort by the key
order produces the same list, here realised by insertion sort. -/
def sort_dict (l : ParamMap) : ParamMap :=
  l.insertionSort keyLe

/-- One `key=value&` fragment of the canonical string (`sign_util.py` line 66). -/
def entryFrag (p : String × PyValue) : String :=
  p.1 ++ "=" ++ pyStr p.2 ++ "&"

/-- The parameter-joining loop of `generate_sign` (`sign_util.py` lines 61-66):
fold over the entries in order, skipping blank values. -/
def joinParams (l : ParamMap) : String :=
  l.foldl (fun acc p => if isBlankParam p.2 then acc else acc ++ entryFrag p) ""

/-- The canonical string fed to the digest (`sign_util.py` lines 57-68):
sorted `key=value&` fragments followed by `signKey=<sign_key>`. -/
def canonicalString (l : ParamMap) (sign_key : String) : String :=
  joinParams (sort_dict l) ++ "signKey=" ++ sign_key

/-- The fields of `config/config.yaml` section `encrypt` that the signing path
reads.  The file itself is not among the sources; modelled from the spec: the
configuration supplies a default sign key (§4.1) and the default salts used by
general-purpose hashing (§4.1 step 5 contrasts the signing path with salted
hashing elsewhere). -/
structure SignConfig where
  sign_key : String
  md5_salt : String
  sha256_salt : String

/-- The `hashlib` hex-digest primitives, external collaborators of the protocol
(spec §6): deterministic functions from the UTF-8 text to a hex string. -/
structure HashEnv where
  md5Hex : String → String
  sha256Hex : String → String

/-- A Python exception value: class name, `str(e)`, and whether the class derives
from `Exception` (so that `except Exception` catches it).  All framework
exceptions derive from `ApiAutoTestError`, which subclasses `BaseException`
directly (`exceptions.py` line 6), so `except Exception` does not catch them. -/
structure PyExc where
  typeName : String
  msg : String
  isExceptionSubclass : Bool
deriving DecidableEq, Repr

/-- `EncryptError(m)` (`exception_handler.py` lines 22-26): message prefixed with
`加密解密异常：`; the class derives from `BaseException` via `ApiAutoTestError`. -/
def EncryptError (m : String) : PyExc :=
  ⟨"EncryptError", "加密解密异常：" ++ m, false⟩

/-- Python `str.lower()`, character by character (`ASCII` suffices here: it is
applied to algorithm names and hex digests). -/
def strLower (s : String) : String :=
  String.mk (s.data.map Char.toLower)

/-- Join a list of strings with a separator (Python `", ".join`). -/
def joinSep (sep : String) : List String → String
  | [] => ""
  | [x] => x
  | x :: xs => x ++ sep ++ joinSep sep xs

/-- A single-quote character, used by Python `repr` of strings. -/
def sq : String := String.singleton (Char.ofNat 39)

/-- Python `repr` of a string (single-quoted; double-quoted when the text itself
contains a single quote). -/
def pyReprStr (s : String) : String :=
  if s.data.contains (Char.ofNat 39) then "\"" ++ s ++ "\"" else sq ++ s ++ sq

/-- Python `repr` of a parameter value. -/
def pyReprValue : PyValue → String
  | PyValue.str s => pyReprStr s
  | PyValue.int n => toString n
  | PyValue.none => "None"

/-- Python `repr` of a dict, as interpolated by `f"...{params}"`. -/
def pyReprDict (l : ParamMap) : String :=
  "\x7b" ++ joinSep ", " (l.map (fun p => pyReprStr p.1 ++ ": " ++ pyReprValue p.2)) ++ "\x7d"

/-- The `TypeError` raised by `int - v` when `v` is not a number. -/
def typeErrorSub (v : PyValue) : PyExc :=
  ⟨"TypeError",
    "unsupported operand type(s) for -: " ++ sq ++ "int" ++ sq ++ " and " ++ sq ++ pyTypeName v ++ sq,
    true⟩

/-- Python `a - v` for an integer `a` and a parameter value `v`: succeeds on an
integer, raises `TypeError` otherwise. -/
def pySubInt (a : Int) : PyValue → Except PyExc Int
  | PyValue.int b => Except.ok (a - b)
  | v => Except.error (typeErrorSub v)

/-- The argument of `generate_sign`: a dict, or any non-dict object (with its
Python type name and `repr` text), since the code explicitly tests
`isinstance(params, dict)`. -/
inductive PyObj where
  | dict (entries : ParamMap)
  | other (typeName : String) (reprText : String)
deriving DecidableEq, Repr

/-- Python `repr` of a `PyObj`. -/
def pyReprObj : PyObj → String
  | PyObj.dict l => pyReprDict l
  | PyObj.other _ r => r

/-- `md5_encrypt` (`encrypt_util.py` lines 28-47).  `if not salt:` substitutes the
configured default salt whenever the argument is falsy, i.e. `None` or the empty
string — including the explicit `salt=""` passed by `generate_sign`. -/
def md5_encrypt (env : HashEnv) (cfg : SignConfig) (content : String) (salt : String) : String :=
  env.md5Hex (content ++ (if salt == "" then cfg.md5_salt else salt))

/-- `sha256_encrypt` (`encrypt_util.py` lines 50-65), same falsy-salt substitution. -/
def sha256_encrypt (env : HashEnv) (cfg : SignConfig) (content : String) (salt : String) : String :=
  env.sha256Hex (content ++ (if salt == "" then cfg.sha256_salt else salt))

/-- Stamping step of `generate_sign` (`sign_util.py` lines 52-55): write the
injected timestamp and nonce into the caller's dict. -/
def stampParams (l : ParamMap) (ts : Int) (nonce : String) : ParamMap :=
  dictSet (dictSet l "timestamp" (PyValue.int ts)) "nonce" (PyValue.str nonce)

/-- The `try` body of `generate_sign` (`sign_util.py` lines 42-79), with the
timestamp and nonce injected.  The result carries the final state of the
caller's parameter object on both the success and the failure path. -/
def generate_sign_try (env : HashEnv) (cfg : SignConfig) (ts : Int) (nonce : String)
    (params : PyObj) (sign_key : String) (sign_type : String) :
    Except (PyExc × PyObj) (String × PyObj) :=
  match params with
  | PyObj.other t r =>
      Except.error (EncryptError "接口签名失败：请求参数必须是字典类型", PyObj.other t r)
  | PyObj.dict l =>
      let key := if sign_key == "" then cfg.sign_key else sign_key
      if key == "" then
        Except.error (EncryptError "接口签名失败：签名密钥未配置", PyObj.dict l)
      else
        let stamped := stampParams l ts nonce
        let sign_str := canonicalString stamped key
        if strLower sign_type == "md5" then
          Except.ok (md5_encrypt env cfg sign_str "", PyObj.dict stamped)
        else if strLower sign_type == "sha256" then
          Except.ok (sha256_encrypt env cfg sign_str "", PyObj.dict stamped)
        else
          Except.error
            (EncryptError ("不支持的签名加密类型：" ++ sign_type ++ "（支持：md5/sha256）"),
             PyObj.dict stamped)

/-- `generate_sign` (`sign_util.py` lines 33-81): the `try` body under the
`except Exception` handler of line 80.  The handler wraps an exception in a new
`EncryptError` embedding the message and the current parameters — but only when
the exception class derives from `Exception`; the framework `EncryptError`
raised by the body derives from `BaseException` only and propagates unchanged. -/
def generate_sign (env : HashEnv) (cfg : SignConfig) (ts : Int) (nonce : String)
    (params : PyObj) (sign_key : String) (sign_type : String) :
    Except (PyExc × PyObj) (String × PyObj) :=
  match generate_sign_try env cfg ts nonce params sign_key sign_type with
  | Except.ok r => Except.ok r
  | Except.error (e, p) =>
      if e.isExceptionSubclass then
        Except.error
          (EncryptError ("接口签名生成失败：" ++ e.msg ++ "，请求参数：" ++ pyReprObj p), p)
      else
        Except.error (e, p)

/-- The signature produced by a `generate_sign` outcome, when it produced one. -/
def signOf (r : Except (PyExc × PyObj) (String × PyObj)) : Option String :=
  match r with
  | Except.ok (s, _) => Option.some s
  | Except.error _ => Option.none

/-- The freshness test of `verify_sign` (`sign_util.py` line 103):
`abs(current_timestamp - request_timestamp) > timeout`. -/
def freshness_exceeded (diff timeout : Int) : Bool :=
  decide (timeout < |diff|)

/-- The `try` body of `verify_sign` (`sign_util.py` lines 95-117).  `now` is the
value of `generate_timestamp()` at line 101; `ts2` and `nonce2` are the fresh
timestamp and nonce that the inner `generate_sign` call of line 109 stamps. -/
def verify_sign_try (env : HashEnv) (cfg : SignConfig) (now ts2 : Int) (nonce2 : String)
    (params : ParamMap) (sign : String) (sign_key : String) (sign_type : String)
    (timeout : Int) :
    Except (PyExc × ParamMap) (Bool × ParamMap) :=
  if !hasKey params "timestamp" || !hasKey params "nonce" then
    Except.ok (false, params)
  else
    match pySubInt now (dictGet params "timestamp") with
    | Except.error e => Except.error (e, params)
    | Except.ok diff =>
        if freshness_exceeded diff timeout then
          Except.ok (false, params)
        else
          match generate_sign env cfg ts2 nonce2 (PyObj.dict params) sign_key sign_type with
          | Except.error (e, p) =>
              Except.error (e, match p with | PyObj.dict l => l | PyObj.other _ _ => params)
          | Except.ok (generated, p) =>
              Except.ok ((strLower generated == strLower sign),
                         match p with | PyObj.dict l => l | PyObj.other _ _ => params)

/-- `verify_sign` (`sign_util.py` lines 84-120): the `try` body under the
`except Exception` handler of line 118, which turns an exception into the
return value `False` — again only for classes deriving from `Exception`;
a framework `EncryptError` escaping the inner `generate_sign` propagates. -/
def verify_sign (env : HashEnv) (cfg : SignConfig) (now ts2 : Int) (nonce2 : String)
    (params : ParamMap) (sign : String) (sign_key : String) (sign_type : String)
    (timeout : Int) :
    Except (PyExc × ParamMap) (Bool × ParamMap) :=
  match verify_sign_try env cfg now ts2 nonce2 params sign sign_key sign_type timeout with
  | Except.ok r => Except.ok r
  | Except.error (e, p) =>
      if e.isExceptionSubclass then Except.ok (false, p)
      else Except.error (e, p)

/-- A concrete hash environment for closed evaluations: the identity digest.
Everything proved about concrete runs below concerns the strings fed to the
digest, so any injective stand-in is adequate for exhibiting behaviour. -/
def idHash : HashEnv := ⟨fun s => s, fun s => s⟩

/-- A concrete configuration with empty salts and no default key. -/
def plainCfg : SignConfig := ⟨"", "", ""⟩

/-! ### Order facts about the key comparison -/

theorem ltCharList_irrefl (l : List Char) : ltCharList l l = false := by
  induction l with
  | nil => rfl
  | cons a as ih => simp [ltCharList, ih]

theorem ltCharList_trans : ∀ (a b c : List Char),
    ltCharList a b = true → ltCharList b c = true → ltCharList a c = true
  | _, _, [], _, h2 => by simp [ltCharList] at h2
  | _, [], _ :: _, h1, _ => by simp [ltCharList] at h1
  | [], _ :: _, _ :: _, _, _ => by simp [ltCharList]
  | a :: as, b :: bs, c :: cs, h1, h2 => by
      simp only [ltCharList] at h1 h2 ⊢
      by_cases hab : a.toNat < b.toNat <;> by_cases hbc : b.toNat < c.toNat <;>
        simp only [hab, hbc, if_pos, if_neg, if_true, if_false] at h1 h2 ⊢
      · have : a.toNat < c.toNat := Nat.lt_trans hab hbc
        simp [this]
      · by_cases hcb : c.toNat < b.toNat
        · simp [hcb] at h2
        · have hbceq : b.toNat = c.toNat := Nat.le_antisymm (Nat.le_of_not_lt hcb) (Nat.le_of_not_lt hbc)
          have : a.toNat < c.toNat := hbceq ▸ hab
          simp [this]
      · by_cases hba : b.toNat < a.toNat
        · simp [hba] at h1
        · have habeq : a.toNat = b.toNat := Nat.le_antisymm (Nat.le_of_not_lt hba) (Nat.le_of_not_lt hab)
          have : a.toNat < c.toNat := habeq ▸ hbc
          simp [this]
      · by_cases hba : b.toNat < a.toNat
        · simp [hba] at h1
        · by_cases hcb : c.toNat < b.toNat
          · simp [hcb] at h2
          · have habeq : a.toNat = b.toNat := Nat.le_antisymm (Nat.le_of_not_lt hba) (Nat.le_of_not_lt hab)
            have hbceq : b.toNat = c.toNat := Nat.le_antisymm (Nat.le_of_not_lt hcb) (Nat.le_of_not_lt hbc)
            have hac : ¬ a.toNat < c.toNat := by omega
            have hca : ¬ c.toNat < a.toNat := by omega
            simp only [hba, if_neg, if_false] at h1
            simp only [hcb, if_neg, if_false] at h2
            simp only [hac, hca, if_neg, if_false]
            exact ltCharList_trans as bs cs h1 h2

theorem char_toNat_inj {a b : Char} (h : a.toNat = b.toNat) : a = b := by
  have := Char.ofNat_toNat a
  rw [h, Char.ofNat_toNat b] at this
  exact this.symm

theorem ltCharList_trichotomy : ∀ (a b : List Char),
    ltCharList a b = true ∨ a = b ∨ ltCharList b a = true
  | [], [] => Or.inr (Or.inl rfl)
  | [], _ :: _ => Or.inl (by simp [ltCharList])
  | _ :: _, [] => Or.inr (Or.inr (by simp [ltCharList]))
  | a :: as, b :: bs => by
      rcases Nat.lt_trichotomy a.toNat b.toNat with h | h | h
      · exact Or.inl (by simp [ltCharList, h])
      · have hab : a = b := char_toNat_inj h
        subst hab
        rcases ltCharList_trichotomy as bs with h1 | h1 | h1
        · exact Or.inl (by simp [ltCharList, h1])
        · exact Or.inr (Or.inl (by rw [h1]))
        · exact Or.inr (Or.inr (by simp [ltCharList, h1]))
      · exact Or.inr (Or.inr (by simp [ltCharList, h]))

theorem strLt_irrefl (s : String) : strLt s s = false :=
  ltCharList_irrefl s.data

theorem strLt_trans {a b c : String} (h1 : strLt a b = true) (h2 : strLt b c = true) :
    strLt a c = true :=
  ltCharList_trans a.data b.data c.data h1 h2

theorem string_eq_of_data_eq {a b : String} (h : a.data = b.data) : a = b :=
  congrArg String.mk h

theorem strLt_trichotomy (a b : String) : strLt a b = true ∨ a = b ∨ strLt b a = true := by
  rcases ltCharList_trichotomy a.data b.data with h | h | h
  · exact Or.inl h
  · exact Or.inr (Or.inl (string_eq_of_data_eq h))
  · exact Or.inr (Or.inr h)

theorem strLt_asym {a b : String} (h : strLt a b = true) : strLt b a = false := by
  by_contra hc
  have hba : strLt b a = true := by
    cases hh : strLt b a
    · exact absurd hh hc
    · rfl
  have := strLt_trans h hba
  rw [strLt_irrefl] at this
  exact Bool.false_ne_true this

instance : IsTrans (String × PyValue) keyLe :=
  ⟨by
    intro a b c h1 h2
    unfold keyLe at h1 h2 ⊢
    by_contra hc
    have hca : strLt c.1 a.1 = true := by
      cases hh : strLt c.1 a.1
      · exact absurd hh hc
      · rfl
    rcases strLt_trichotomy a.1 b.1 with h | h | h
    · have := strLt_trans hca h
      rw [h2] at this
      exact Bool.noConfusion this
    · rw [h] at hca
      rw [h2] at hca
      exact Bool.noConfusion hca
    · rw [h1] at h
      exact Bool.noConfusion h⟩

instance : IsTotal (String × PyValue) keyLe :=
  ⟨by
    intro a b
    unfold keyLe
    cases hh : strLt b.1 a.1
    · exact Or.inl rfl
    · exact Or.inr (strLt_asym hh)⟩

instance : IsAntisymm (String × PyValue) keyLt :=
  ⟨by
    intro a b h1 h2
    unfold keyLt at h1 h2
    have := strLt_asym h1
    rw [h2] at this
    exact absurd this (by simp)⟩

theorem keyLt_of_keyLe_of_ne {a b : String × PyValue} (h1 : keyLe a b) (h2 : a.1 ≠ b.1) :
    keyLt a b := by
  unfold keyLe at h1
  unfold keyLt
  rcases strLt_trichotomy a.1 b.1 with h | h | h
  · exact h
  · exact absurd h h2
  · rw [h1] at h
    exact absurd h (by simp)

/-! ### The canonical string depends only on the multiset of non-blank entries -/

/-- The entries of a map that contribute to the canonical string. -/
def nonBlank (p : String × PyValue) : Bool := !isBlankParam p.2

/-- Structural description of the joining fold: each entry contributes its
fragment, blank entries contribute the empty string. -/
def fragJoin : ParamMap → String
  | [] => ""
  | p :: l => (if isBlankParam p.2 then "" else entryFrag p) ++ fragJoin l

theorem foldl_fragJoin (l : ParamMap) (acc : String) :
    l.foldl (fun a p => if isBlankParam p.2 then a else a ++ entryFrag p) acc
      = acc ++ fragJoin l := by
  induction l generalizing acc with
  | nil => simp [fragJoin, String.append_empty]
  | cons p l ih =>
      cases h : isBlankParam p.2
      · simp [fragJoin, h, ih, String.append_assoc]
      · simp [fragJoin, h, ih, String.empty_append]

theorem joinParams_eq_fragJoin (l : ParamMap) : joinParams l = fragJoin l := by
  unfold joinParams
  rw [foldl_fragJoin, String.empty_append]

theorem fragJoin_filter (l : ParamMap) : fragJoin (l.filter nonBlank) = fragJoin l := by
  induction l with
  | nil => rfl
  | cons p l ih =>
      cases h : isBlankParam p.2
      · have hnb : nonBlank p = true := by simp [nonBlank, h]
        simp [List.filter_cons, hnb, fragJoin, h, ih]
      · have hnb : nonBlank p = false := by simp [nonBlank, h]
        simp [List.filter_cons, hnb, fragJoin, h, ih, String.empty_append]

theorem keys_sort_dict_nodup {l : ParamMap} (h : (l.map Prod.fst).Nodup) :
    ((sort_dict l).map Prod.fst).Nodup :=
  (((List.perm_insertionSort keyLe l).map Prod.fst).nodup_iff).mpr h

theorem sort_dict_pairwise_keyLt {l : ParamMap} (h : (l.map Prod.fst).Nodup) :
    (sort_dict l).Pairwise keyLt := by
  have hle : (sort_dict l).Pairwise keyLe := List.sorted_insertionSort keyLe l
  have hne : (sort_dict l).Pairwise (fun a b : String × PyValue => a.1 ≠ b.1) :=
    List.pairwise_map.mp (keys_sort_dict_nodup h)
  exact (hle.and hne).imp (fun hp => keyLt_of_keyLe_of_ne hp.1 hp.2)

/-- Master lemma: two duplicate-free maps whose non-blank entries agree as
multisets produce the same canonical string, whatever the sign key. -/
theorem canonicalString_eq_of_filter_perm {l1 l2 : ParamMap}
    (hnd1 : (l1.map Prod.fst).Nodup) (hnd2 : (l2.map Prod.fst).Nodup)
    (hp : (l1.filter nonBlank).Perm (l2.filter nonBlank)) (key : String) :
    canonicalString l1 key = canonicalString l2 key := by
  have hs1 : ((sort_dict l1).filter nonBlank).Pairwise keyLt :=
    (sort_dict_pairwise_keyLt hnd1).sublist (List.filter_sublist _)
  have hs2 : ((sort_dict l2).filter nonBlank).Pairwise keyLt :=
    (sort_dict_pairwise_keyLt hnd2).sublist (List.filter_sublist _)
  have hperm : ((sort_dict l1).filter nonBlank).Perm ((sort_dict l2).filter nonBlank) :=
    (((List.perm_insertionSort keyLe l1).filter nonBlank).trans hp).trans
      ((List.perm_insertionSort keyLe l2).filter nonBlank).symm
  have heq : (sort_dict l1).filter nonBlank = (sort_dict l2).filter nonBlank :=
    List.eq_of_perm_of_sorted hperm hs1 hs2
  unfold canonicalString
  rw [joinParams_eq_fragJoin, joinParams_eq_fragJoin, ← fragJoin_filter (sort_dict l1),
    ← fragJoin_filter (sort_dict l2), heq]

/-! ### Facts about dict update -/

theorem hasKey_iff_mem {l : ParamMap} {k : String} :
    hasKey l k = true ↔ k ∈ l.map Prod.fst := by
  simp [hasKey, List.any_eq_true, List.mem_map, beq_iff_eq]

theorem hasKey_perm {l1 l2 : ParamMap} (h : l1.Perm l2) (k : String) :
    hasKey l1 k = hasKey l2 k := by
  cases h1 : hasKey l1 k
  · cases h2 : hasKey l2 k
    · rfl
    · have := hasKey_iff_mem.mp h2
      rw [← (h.map Prod.fst).mem_iff] at this
      rw [hasKey_iff_mem.mpr this] at h1
      exact absurd h1 (by simp)
  · have := hasKey_iff_mem.mp h1
    rw [(h.map Prod.fst).mem_iff] at this
    exact (hasKey_iff_mem.mpr this).symm

theorem dictSet_perm {l1 l2 : ParamMap} (h : l1.Perm l2) (k : String) (v : PyValue) :
    (dictSet l1 k v).Perm (dictSet l2 k v) := by
  unfold dictSet
  rw [hasKey_perm h]
  by_cases hk : hasKey l2 k = true
  · simp only [hk, if_pos, if_true]
    exact h.map _
  · simp only [hk, if_neg, if_false, Bool.false_eq_true]
    exact h.append_right _

theorem map_fst_dictSet_pos {l : ParamMap} {k : String} (v : PyValue)
    (h : hasKey l k = true) : (dictSet l k v).map Prod.fst = l.map Prod.fst := by
  unfold dictSet
  simp only [h, if_pos, if_true, List.map_map]
  apply List.map_congr_left
  intro p _
  simp only [Function.comp]
  by_cases hp : p.1 == k
  · simp only [hp, if_pos, if_true]
    exact (beq_iff_eq.mp hp).symm
  · simp only [hp, if_neg, if_false, Bool.false_eq_true]

theorem map_fst_dictSet_neg {l : ParamMap} {k : String} (v : PyValue)
    (h : hasKey l k = false) : (dictSet l k v).map Prod.fst = l.map Prod.fst ++ [k] := by
  unfold dictSet
  simp [h]

theorem nodup_keys_dictSet {l : ParamMap} {k : String} (v : PyValue)
    (h : (l.map Prod.fst).Nodup) : ((dictSet l k v).map Prod.fst).Nodup := by
  cases hk : hasKey l k
  · rw [map_fst_dictSet_neg v hk]
    have hmem : k ∉ l.map Prod.fst := fun hm => by
      rw [hasKey_iff_mem.mpr hm] at hk
      exact Bool.noConfusion hk
    simp [List.nodup_append, h, hmem]
  · rw [map_fst_dictSet_pos v hk]
    exact h

theorem hasKey_append_self {l : ParamMap} {k : String} (v : PyValue) :
    hasKey (l ++ [(k, v)]) k = true := by
  simp [hasKey, List.any_append]

theorem hasKey_append_other {l : ParamMap} {k k2 : String} (v : PyValue) (hne : k ≠ k2) :
    hasKey (l ++ [(k, v)]) k2 = hasKey l k2 := by
  simp [hasKey, List.any_append, hne]

theorem not_hasKey_forall {l : ParamMap} {k : String} (h : hasKey l k = false) :
    ∀ p ∈ l, (p.1 == k) = false := by
  intro p hp
  cases he : p.1 == k
  · rfl
  · have hm : k ∈ l.map Prod.fst := List.mem_map.mpr ⟨p, hp, beq_iff_eq.mp he⟩
    rw [hasKey_iff_mem.mpr hm] at h
    exact Bool.noConfusion h

/-- Updating a key that sits (only) at the very end of the map rewrites that
last entry in place, which is the same as appending the update to the rest. -/
theorem dictSet_append_same {l : ParamMap} {k : String} (v w : PyValue)
    (h : hasKey l k = false) : dictSet (l ++ [(k, v)]) k w = dictSet l k w := by
  unfold dictSet
  simp only [hasKey_append_self v, if_pos, if_true, h, if_neg, if_false, Bool.false_eq_true]
  rw [List.map_append]
  congr 1
  · calc l.map (fun p => if p.1 == k then (k, w) else p)
        = l.map id := by
          apply List.map_congr_left
          intro p hp
          simp [not_hasKey_forall h p hp]
      _ = l := List.map_id l
  · simp

/-- Updating a key different from the one appended at the end commutes with the
append, up to permutation. -/
theorem dictSet_append_other {l : ParamMap} {k k2 : String} (v w : PyValue) (hne : k ≠ k2) :
    (dictSet (l ++ [(k, v)]) k2 w).Perm ((dictSet l k2 w) ++ [(k, v)]) := by
  unfold dictSet
  rw [hasKey_append_other v hne]
  cases hk : hasKey l k2
  · simp only [hk, Bool.false_eq_true, if_false]
    have h1 : (l ++ [(k, v)]) ++ [(k2, w)] = l ++ ([(k, v)] ++ [(k2, w)]) := by
      rw [List.append_assoc]
    have h2 : (l ++ [(k2, w)]) ++ [(k, v)] = l ++ ([(k2, w)] ++ [(k, v)]) := by
      rw [List.append_assoc]
    rw [h1, h2]
    exact (List.Perm.swap (k2, w) (k, v) []).append_left l
  · simp only [hk, if_true]
    rw [List.map_append]
    have hfix : [(k, v)].map (fun p => if p.1 == k2 then (k2, w) else p) = [(k, v)] := by
      simp [hne]
    rw [hfix]

theorem filter_append_blank {l : ParamMap} {p : String × PyValue} (h : nonBlank p = false) :
    (l ++ [p]).filter nonBlank = l.filter nonBlank := by
  simp [List.filter_append, h]

theorem hasKey_eq_false_iff {l : ParamMap} {k : String} :
    hasKey l k = false ↔ k ∉ l.map Prod.fst := by
  rw [← hasKey_iff_mem]
  cases hasKey l k <;> simp

theorem hasKey_dictSet_other {l : ParamMap} {k1 k2 : String} (w : PyValue) (hne : k2 ≠ k1) :
    hasKey (dictSet l k1 w) k2 = hasKey l k2 := by
  cases hh : hasKey l k1
  · have hkeys := map_fst_dictSet_neg w hh
    cases h2 : hasKey l k2
    · apply hasKey_eq_false_iff.mpr
      rw [hkeys]
      intro hmem
      rcases List.mem_append.mp hmem with hm | hm
      · exact (hasKey_eq_false_iff.mp h2) hm
      · simp at hm
        exact hne hm
    · apply hasKey_iff_mem.mpr
      rw [hkeys]
      exact List.mem_append_left _ (hasKey_iff_mem.mp h2)
  · have hkeys := map_fst_dictSet_pos w hh
    cases h2 : hasKey l k2
    · apply hasKey_eq_false_iff.mpr
      rw [hkeys]
      exact hasKey_eq_false_iff.mp h2
    · apply hasKey_iff_mem.mpr
      rw [hkeys]
      exact hasKey_iff_mem.mp h2

theorem stampParams_perm {l1 l2 : ParamMap} (h : l1.Perm l2) (ts : Int) (nonce : String) :
    (stampParams l1 ts nonce).Perm (stampParams l2 ts nonce) :=
  dictSet_perm (dictSet_perm h "timestamp" _) "nonce" _

theorem nodup_keys_stampParams {l : ParamMap} (h : (l.map Prod.fst).Nodup)
    (ts : Int) (nonce : String) : ((stampParams l ts nonce).map Prod.fst).Nodup :=
  nodup_keys_dictSet _ (nodup_keys_dictSet _ h)

/-- The outcome of `generate_sign` — viewed only through the produced signature —
depends on the stamped map only through its canonical string. -/
theorem signOf_generate_sign_congr (env : HashEnv) (cfg : SignConfig) (ts : Int) (nonce : String)
    (l1 l2 : ParamMap) (key algo : String)
    (hc : ∀ k2, canonicalString (stampParams l1 ts nonce) k2
        = canonicalString (stampParams l2 ts nonce) k2) :
    signOf (generate_sign env cfg ts nonce (PyObj.dict l1) key algo)
      = signOf (generate_sign env cfg ts nonce (PyObj.dict l2) key algo) := by
  simp only [generate_sign, generate_sign_try, beq_iff_eq]
  by_cases h1 : (if key = "" then cfg.sign_key else key) = ""
  · simp [h1, signOf, EncryptError]
  · by_cases h2 : strLower algo = "md5"
    · simp [h1, h2, signOf, hc, EncryptError]
    · by_cases h3 : strLower algo = "sha256"
      · simp [h1, h2, h3, signOf, hc, EncryptError]
      · simp [h1, h2, h3, signOf, EncryptError]

/-- Appending a blank-valued entry with a fresh key leaves the canonical string
of the stamped map unchanged. -/
theorem stamp_append_blank_canonical {l : ParamMap} {k : String} {v : PyValue}
    (hb : isBlankParam v = true) (hnd : (l.map Prod.fst).Nodup) (hk : k ∉ l.map Prod.fst)
    (ts : Int) (nonce : String) :
    ∀ k2, canonicalString (stampParams (l ++ [(k, v)]) ts nonce) k2
        = canonicalString (stampParams l ts nonce) k2 := by
  intro k2
  have hkeyF : hasKey l k = false := hasKey_eq_false_iff.mpr hk
  have hnd2 : ((l ++ [(k, v)]).map Prod.fst).Nodup := by
    rw [List.map_append]
    refine List.Nodup.append hnd (List.nodup_singleton k) ?_
    intro a ha hb2
    simp at hb2
    subst hb2
    exact hk ha
  by_cases ht : k = "timestamp"
  · subst ht
    unfold stampParams
    rw [dictSet_append_same v (PyValue.int ts) hkeyF]
  · by_cases hn : k = "nonce"
    · subst hn
      have hp1 : (dictSet (l ++ [("nonce", v)]) "timestamp" (PyValue.int ts)).Perm
          ((dictSet l "timestamp" (PyValue.int ts)) ++ [("nonce", v)]) :=
        dictSet_append_other v (PyValue.int ts) (by decide)
      have hp2 := dictSet_perm hp1 "nonce" (PyValue.str nonce)
      have hkeyF2 : hasKey (dictSet l "timestamp" (PyValue.int ts)) "nonce" = false := by
        rw [hasKey_dictSet_other (PyValue.int ts) (by decide)]
        exact hasKey_eq_false_iff.mpr hk
      rw [dictSet_append_same v (PyValue.str nonce) hkeyF2] at hp2
      exact canonicalString_eq_of_filter_perm (nodup_keys_stampParams hnd2 ts nonce)
        (nodup_keys_stampParams hnd ts nonce) (hp2.filter nonBlank) k2
    · have hp1 : (dictSet (l ++ [(k, v)]) "timestamp" (PyValue.int ts)).Perm
          ((dictSet l "timestamp" (PyValue.int ts)) ++ [(k, v)]) :=
        dictSet_append_other v (PyValue.int ts) ht
      have hp2 := dictSet_perm hp1 "nonce" (PyValue.str nonce)
      have hp3 : (dictSet ((dictSet l "timestamp" (PyValue.int ts)) ++ [(k, v)]) "nonce"
          (PyValue.str nonce)).Perm
          ((dictSet (dictSet l "timestamp" (PyValue.int ts)) "nonce" (PyValue.str nonce))
            ++ [(k, v)]) :=
        dictSet_append_other v (PyValue.str nonce) hn
      have hp4 := hp2.trans hp3
      have hfp := hp4.filter nonBlank
      rw [filter_append_blank (by simp [nonBlank, hb])] at hfp
      exact canonicalString_eq_of_filter_perm (nodup_keys_stampParams hnd2 ts nonce)
        (nodup_keys_stampParams hnd ts nonce) hfp k2

/-- C2: order independence.  For two parameter maps holding the same key-value
pairs in different insertion orders, `generate_sign` with the same key and
algorithm — stamped with the same injected timestamp and nonce — produces
identical signatures, and the canonical string of the stamped map is a pure
function of the map's contents, independent of insertion order. -/
theorem generate_sign_order_independent (env : HashEnv) (cfg : SignConfig) (ts : Int)
    (nonce : String) (l1 l2 : ParamMap) (key algo : String)
    (hperm : l1.Perm l2) (hnd : (l1.map Prod.fst).Nodup) :
    signOf (generate_sign env cfg ts nonce (PyObj.dict l1) key algo)
      = signOf (generate_sign env cfg ts nonce (PyObj.dict l2) key algo)
    ∧ ∀ k2, canonicalString (stampParams l1 ts nonce) k2
        = canonicalString (stampParams l2 ts nonce) k2 := by
  have hnd2 : (l2.map Prod.fst).Nodup := ((hperm.map Prod.fst).nodup_iff).mp hnd
  have hsp := stampParams_perm hperm ts nonce
  have hc : ∀ k2, canonicalString (stampParams l1 ts nonce) k2
      = canonicalString (stampParams l2 ts nonce) k2 :=
    fun k2 => canonicalString_eq_of_filter_perm (nodup_keys_stampParams hnd ts nonce)
      (nodup_keys_stampParams hnd2 ts nonce) (hsp.filter nonBlank) k2
  exact ⟨signOf_generate_sign_congr env cfg ts nonce l1 l2 key algo hc, hc⟩

/-- Witness for C2 at a concrete pair of reordered maps. -/
theorem generate_sign_order_independent_witness :
    signOf (generate_sign idHash plainCfg 7 "n2"
        (PyObj.dict [("b", PyValue.int 2), ("a", PyValue.str "x")]) "k" "sha256")
      = signOf (generate_sign idHash plainCfg 7 "n2"
        (PyObj.dict [("a", PyValue.str "x"), ("b", PyValue.int 2)]) "k" "sha256")
    ∧ canonicalString (stampParams [("b", PyValue.int 2), ("a", PyValue.str "x")] 7 "n2") "k"
      = canonicalString (stampParams [("a", PyValue.str "x"), ("b", PyValue.int 2)] 7 "n2") "k" :=
  ⟨(generate_sign_order_independent idHash plainCfg 7 "n2"
      [("b", PyValue.int 2), ("a", PyValue.str "x")] [("a", PyValue.str "x"), ("b", PyValue.int 2)]
      "k" "sha256" (List.Perm.swap ("a", PyValue.str "x") ("b", PyValue.int 2) []) (by decide)).1,
   (generate_sign_order_independent idHash plainCfg 7 "n2"
      [("b", PyValue.int 2), ("a", PyValue.str "x")] [("a", PyValue.str "x"), ("b", PyValue.int 2)]
      "k" "sha256" (List.Perm.swap ("a", PyValue.str "x") ("b", PyValue.int 2) []) (by decide)).2 "k"⟩

/-- C7: null/empty elision.  A parameter whose value is `None`, or whose string
form strips to the empty string, contributes nothing to the canonical string:
adding such a parameter under a fresh key never changes the signature produced
by `generate_sign`, given the same injected timestamp and nonce. -/
theorem generate_sign_blank_param_elision (env : HashEnv) (cfg : SignConfig) (ts : Int)
    (nonce : String) (l : ParamMap) (key algo k : String) (v : PyValue)
    (hb : isBlankParam v = true) (hnd : (l.map Prod.fst).Nodup) (hk : k ∉ l.map Prod.fst) :
    signOf (generate_sign env cfg ts nonce (PyObj.dict (l ++ [(k, v)])) key algo)
      = signOf (generate_sign env cfg ts nonce (PyObj.dict l) key algo) :=
  signOf_generate_sign_congr env cfg ts nonce _ _ key algo
    (stamp_append_blank_canonical hb hnd hk ts nonce)

/-- Witness for C7: adding a `None`-valued and evaluating both runs concretely. -/
theorem generate_sign_blank_param_elision_witness :
    signOf (generate_sign idHash plainCfg 5 "n1"
        (PyObj.dict ([("a", PyValue.int 1)] ++ [("b", PyValue.none)])) "k" "md5")
      = signOf (generate_sign idHash plainCfg 5 "n1"
        (PyObj.dict [("a", PyValue.int 1)]) "k" "md5") :=
  generate_sign_blank_param_elision idHash plainCfg 5 "n1" [("a", PyValue.int 1)] "k" "md5"
    "b" PyValue.none (by decide) (by decide) (by decide)

/-! ### Error analysis of the generation and verification paths -/

/-- Every failure of the `try` body of `generate_sign` is one of its three
`EncryptError` raise sites. -/
theorem generate_sign_try_error_cases (env : HashEnv) (cfg : SignConfig) (ts : Int)
    (nonce : String) (params : PyObj) (key algo : String) (e : PyExc) (p : PyObj)
    (h : generate_sign_try env cfg ts nonce params key algo = Except.error (e, p)) :
    e = EncryptError "接口签名失败：请求参数必须是字典类型"
    ∨ e = EncryptError "接口签名失败：签名密钥未配置"
    ∨ e = EncryptError ("不支持的签名加密类型：" ++ algo ++ "（支持：md5/sha256）") := by
  unfold generate_sign_try at h
  cases params with
  | other t r =>
      simp only [Except.error.injEq, Prod.mk.injEq] at h
      exact Or.inl h.1.symm
  | dict l =>
      simp only [beq_iff_eq] at h
      by_cases h1 : (if key = "" then cfg.sign_key else key) = ""
      · simp only [h1, if_true, Except.error.injEq, Prod.mk.injEq] at h
        exact Or.inr (Or.inl h.1.symm)
      · by_cases h2 : strLower algo = "md5"
        · simp [h1, h2] at h
        · by_cases h3 : strLower algo = "sha256"
          · simp [h1, h2, h3] at h
          · simp only [h1, h2, h3, if_false, if_neg, Except.error.injEq, Prod.mk.injEq] at h
            exact Or.inr (Or.inr h.1.symm)

/-- Every failure of `generate_sign` is the single framework exception type
`EncryptError`, escaping the `except Exception` handler un-re-wrapped because
the class derives from `BaseException`. -/
theorem generate_sign_error_cases (env : HashEnv) (cfg : SignConfig) (ts : Int)
    (nonce : String) (params : PyObj) (key algo : String) (e : PyExc) (p : PyObj)
    (h : generate_sign env cfg ts nonce params key algo = Except.error (e, p)) :
    e.typeName = "EncryptError" ∧ e.isExceptionSubclass = false ∧
      (e.msg = "加密解密异常：" ++ "接口签名失败：请求参数必须是字典类型"
       ∨ e.msg = "加密解密异常：" ++ "接口签名失败：签名密钥未配置"
       ∨ e.msg = "加密解密异常：" ++ ("不支持的签名加密类型：" ++ algo ++ "（支持：md5/sha256）")) := by
  unfold generate_sign at h
  rcases hX : generate_sign_try env cfg ts nonce params key algo with ep | r
  case ok =>
    rw [hX] at h
    exact absurd h (by simp)
  case error =>
    obtain ⟨e0, p0⟩ := ep
    rw [hX] at h
    rcases generate_sign_try_error_cases env cfg ts nonce params key algo e0 p0 hX
      with h0 | h0 | h0 <;> subst h0 <;>
      simp only [EncryptError, Bool.false_eq_true, if_false, if_neg,
        Except.error.injEq, Prod.mk.injEq] at h <;>
      obtain ⟨he, -⟩ := h <;> subst he <;> simp [EncryptError]

/-- Every failure of the `try` body of `verify_sign` is either the `TypeError`
of the freshness arithmetic or an error escaping the inner `generate_sign`. -/
theorem verify_sign_try_error_cases (env : HashEnv) (cfg : SignConfig) (now ts2 : Int)
    (nonce2 : String) (l : ParamMap) (sign key algo : String) (timeout : Int)
    (e : PyExc) (p : ParamMap)
    (h : verify_sign_try env cfg now ts2 nonce2 l sign key algo timeout
        = Except.error (e, p)) :
    (∃ v, e = typeErrorSub v) ∨
    (∃ p2, generate_sign env cfg ts2 nonce2 (PyObj.dict l) key algo = Except.error (e, p2)) := by
  unfold verify_sign_try at h
  by_cases h1 : (!hasKey l "timestamp" || !hasKey l "nonce") = true
  · simp [h1] at h
  · simp only [h1, Bool.false_eq_true, if_false, if_neg] at h
    rcases hs : pySubInt now (dictGet l "timestamp") with e1 | d
    · rw [hs] at h
      simp only [Except.error.injEq, Prod.mk.injEq] at h
      have he1 : ∃ v, e1 = typeErrorSub v := by
        unfold pySubInt at hs
        cases hv : dictGet l "timestamp" <;> rw [hv] at hs <;>
          simp only [Except.error.injEq, Except.ok.injEq] at hs
        · exact ⟨PyValue.str _, hs.symm⟩
        · exact absurd hs (by simp)
        · exact ⟨PyValue.none, hs.symm⟩
      obtain ⟨v, hv⟩ := he1
      exact Or.inl ⟨v, by rw [← h.1, hv]⟩
    · rw [hs] at h
      by_cases hf : freshness_exceeded d timeout = true
      · simp [hf] at h
      · simp only [hf, Bool.false_eq_true, if_false, if_neg] at h
        rcases hg : generate_sign env cfg ts2 nonce2 (PyObj.dict l) key algo with gp | gr
        · obtain ⟨e2, p2⟩ := gp
          rw [hg] at h
          simp only [Except.error.injEq, Prod.mk.injEq] at h
          exact Or.inr ⟨p2, by rw [h.1]⟩
        · rw [hg] at h
          simp at h

/-- C8 (amended): verification degrades to `false` for missing fields and for
non-framework exceptions, and any exception it does propagate is the single
framework `EncryptError` escaping the inner `generate_sign` — which the
`except Exception` handler of line 118 cannot catch, since `EncryptError`
derives from `BaseException` only. -/
theorem verify_sign_error_policy (env : HashEnv) (cfg : SignConfig) (now ts2 : Int)
    (nonce2 : String) (l : ParamMap) (sign key algo : String) (timeout : Int) :
    (hasKey l "nonce" = false →
      verify_sign env cfg now ts2 nonce2 l sign key algo timeout = Except.ok (false, l))
    ∧ (∀ e p, verify_sign env cfg now ts2 nonce2 l sign key algo timeout
          = Except.error (e, p) →
        e.typeName = "EncryptError" ∧ e.isExceptionSubclass = false) := by
  constructor
  · intro h
    unfold verify_sign verify_sign_try
    simp [h]
  · intro e p h
    unfold verify_sign at h
    rcases hX : verify_sign_try env cfg now ts2 nonce2 l sign key algo timeout with ep | r
    case ok =>
      rw [hX] at h
      exact absurd h (by simp)
    case error =>
      obtain ⟨e0, p0⟩ := ep
      rw [hX] at h
      by_cases hc : e0.isExceptionSubclass = true
      · simp [hc] at h
      · have hcf : e0.isExceptionSubclass = false := by
          cases hb : e0.isExceptionSubclass
          · rfl
          · exact absurd hb hc
        simp only [hcf, Bool.false_eq_true, if_false, if_neg,
          Except.error.injEq, Prod.mk.injEq] at h
        obtain ⟨he, -⟩ := h
        subst he
        rcases verify_sign_try_error_cases env cfg now ts2 nonce2 l sign key algo timeout
          e0 p0 hX with ⟨v, hv⟩ | ⟨p2, hg⟩
        · rw [hv] at hcf
          simp [typeErrorSub] at hcf
        · exact ⟨(generate_sign_error_cases env cfg ts2 nonce2 (PyObj.dict l) key algo
            e0 p2 hg).1, hcf⟩

/-- Witness for C8 (amended): a map lacking `nonce` verifies to `false`. -/
theorem verify_sign_error_policy_witness :
    verify_sign idHash plainCfg 0 0 "n" [("a", PyValue.int 1)] "s" "k" "sha256" 300
      = Except.ok (false, [("a", PyValue.int 1)]) :=
  (verify_sign_error_policy idHash plainCfg 0 0 "n" [("a", PyValue.int 1)]
    "s" "k" "sha256" 300).1 (by decide)

/-- C8 counterexample: with `timestamp` and `nonce` present and a fresh
timestamp, an unsupported algorithm makes `verify_sign` propagate the
`EncryptError` raised inside the signature recomputation instead of returning
a boolean — `except Exception` does not catch a `BaseException` subclass. -/
theorem verify_sign_propagates_counterexample :
    verify_sign idHash plainCfg 100 100 "y"
        [("timestamp", PyValue.int 100), ("nonce", PyValue.str "x")] "s" "secret" "sha1" 300
      = Except.error (EncryptError ("不支持的签名加密类型：" ++ "sha1" ++ "（支持：md5/sha256）"),
          [("timestamp", PyValue.int 100), ("nonce", PyValue.str "y")]) := by decide

/-- C9 (amended): every generation-side failure is raised as the one exception
type `EncryptError`; validation errors propagate directly — un-re-wrapped,
because `EncryptError` subclasses `BaseException` and so escapes the
`except Exception` handler of line 80. -/
theorem generate_sign_single_error_type (env : HashEnv) (cfg : SignConfig) (ts : Int)
    (nonce : String) (params : PyObj) (key algo : String) (e : PyExc) (p : PyObj)
    (h : generate_sign env cfg ts nonce params key algo = Except.error (e, p)) :
    e.typeName = "EncryptError" ∧ e.isExceptionSubclass = false ∧
      (e.msg = "加密解密异常：" ++ "接口签名失败：请求参数必须是字典类型"
       ∨ e.msg = "加密解密异常：" ++ "接口签名失败：签名密钥未配置"
       ∨ e.msg = "加密解密异常：" ++ ("不支持的签名加密类型：" ++ algo ++ "（支持：md5/sha256）")) :=
  generate_sign_error_cases env cfg ts nonce params key algo e p h

/-- Witness for C9 (amended) at a non-dict argument. -/
theorem generate_sign_single_error_type_witness :
    (EncryptError "接口签名失败：请求参数必须是字典类型").typeName = "EncryptError"
    ∧ (EncryptError "接口签名失败：请求参数必须是字典类型").isExceptionSubclass = false
    ∧ ((EncryptError "接口签名失败：请求参数必须是字典类型").msg
        = "加密解密异常：" ++ "接口签名失败：请求参数必须是字典类型"
       ∨ (EncryptError "接口签名失败：请求参数必须是字典类型").msg
        = "加密解密异常：" ++ "接口签名失败：签名密钥未配置"
       ∨ (EncryptError "接口签名失败：请求参数必须是字典类型").msg
        = "加密解密异常：" ++ ("不支持的签名加密类型：" ++ "sha256" ++ "（支持：md5/sha256）")) :=
  generate_sign_single_error_type idHash plainCfg 0 "n" (PyObj.other "list" "[1, 2]")
    "k" "sha256" (EncryptError "接口签名失败：请求参数必须是字典类型")
    (PyObj.other "list" "[1, 2]") (by decide)

/-- C9 counterexample: at a non-dict argument the raised error is the single
inner `EncryptError` as it stands — not a second `EncryptError` whose message
embeds the inner message together with the parameter repr. -/
theorem generate_sign_no_rewrap_counterexample :
    generate_sign idHash plainCfg 0 "n" (PyObj.other "list" "[1, 2]") "k" "sha256"
      = Except.error (EncryptError "接口签名失败：请求参数必须是字典类型", PyObj.other "list" "[1, 2]")
    ∧ (EncryptError "接口签名失败：请求参数必须是字典类型").msg
        ≠ (EncryptError ("接口签名生成失败："
            ++ (EncryptError "接口签名失败：请求参数必须是字典类型").msg
            ++ "，请求参数：" ++ "[1, 2]")).msg :=
  ⟨by decide, by decide⟩

/-- C6: the freshness window of `verify_sign` is symmetric in clock skew.  With
an integer timestamp present, verification returns `false` whenever the
absolute clock difference strictly exceeds the window; a difference of exactly
the window passes the freshness test, and a timestamp exactly `window + 1`
seconds in the past fails verification. -/
theorem verify_sign_freshness_window (env : HashEnv) (cfg : SignConfig) (now ts2 : Int)
    (nonce2 : String) (l : ParamMap) (sign key algo : String) (timeout rts : Int)
    (ht : hasKey l "timestamp" = true) (hn : hasKey l "nonce" = true)
    (hv : dictGet l "timestamp" = PyValue.int rts) :
    (|now - rts| > timeout →
      verify_sign env cfg now ts2 nonce2 l sign key algo timeout = Except.ok (false, l))
    ∧ (|now - rts| = timeout → freshness_exceeded (now - rts) timeout = false)
    ∧ (rts = now - (timeout + 1) → 0 ≤ timeout →
      verify_sign env cfg now ts2 nonce2 l sign key algo timeout = Except.ok (false, l)) := by
  have hmain : |now - rts| > timeout →
      verify_sign env cfg now ts2 nonce2 l sign key algo timeout = Except.ok (false, l) := by
    intro hgt
    unfold verify_sign verify_sign_try
    simp [ht, hn, hv, pySubInt, freshness_exceeded, hgt]
  refine ⟨hmain, ?_, ?_⟩
  · intro heq
    simp [freshness_exceeded, heq]
  · intro hrts ht0
    apply hmain
    rw [hrts]
    have h1 : now - (now - (timeout + 1)) = timeout + 1 := by ring
    rw [h1, abs_of_nonneg (by omega)]
    omega

/-- Witness for C6 at the boundary values around a 300-second window. -/
theorem verify_sign_freshness_window_witness :
    verify_sign idHash plainCfg 1000 1000 "nn"
        [("timestamp", PyValue.int 0), ("nonce", PyValue.str "x")] "s" "k" "sha256" 300
      = Except.ok (false, [("timestamp", PyValue.int 0), ("nonce", PyValue.str "x")])
    ∧ freshness_exceeded (1000 - 700) 300 = false
    ∧ verify_sign idHash plainCfg 1000 1000 "nn"
        [("timestamp", PyValue.int 699), ("nonce", PyValue.str "x")] "s" "k" "sha256" 300
      = Except.ok (false, [("timestamp", PyValue.int 699), ("nonce", PyValue.str "x")]) :=
  ⟨(verify_sign_freshness_window idHash plainCfg 1000 1000 "nn"
      [("timestamp", PyValue.int 0), ("nonce", PyValue.str "x")] "s" "k" "sha256" 300 0
      (by decide) (by decide) (by decide)).1 (by decide),
   (verify_sign_freshness_window idHash plainCfg 1000 1000 "nn"
      [("timestamp", PyValue.int 700), ("nonce", PyValue.str "x")] "s" "k" "sha256" 300 700
      (by decide) (by decide) (by decide)).2.1 (by decide),
   (verify_sign_freshness_window idHash plainCfg 1000 1000 "nn"
      [("timestamp", PyValue.int 699), ("nonce", PyValue.str "x")] "s" "k" "sha256" 300 699
      (by decide) (by decide) (by decide)).2.2 (by decide) (by decide)⟩

/-- C10: a map that carries `timestamp` and `nonce` but whose timestamp is text
makes the freshness subtraction raise `TypeError`, which — being an `Exception`
subclass — the `except Exception` handler of line 118 swallows: `verify_sign`
returns `false` rather than raising. -/
theorem verify_sign_nonnumeric_timestamp (env : HashEnv) (cfg : SignConfig) (now ts2 : Int)
    (nonce2 : String) (l : ParamMap) (sign key algo : String) (timeout : Int) (s : String)
    (ht : hasKey l "timestamp" = true) (hn : hasKey l "nonce" = true)
    (hv : dictGet l "timestamp" = PyValue.str s) :
    verify_sign env cfg now ts2 nonce2 l sign key algo timeout = Except.ok (false, l) := by
  unfold verify_sign verify_sign_try
  simp [ht, hn, hv, pySubInt, typeErrorSub]

/-- Witness for C10 at a concrete text timestamp. -/
theorem verify_sign_nonnumeric_timestamp_witness :
    verify_sign idHash plainCfg 50 50 "nn"
        [("timestamp", PyValue.str "abc"), ("nonce", PyValue.str "x")] "s" "k" "sha256" 300
      = Except.ok (false, [("timestamp", PyValue.str "abc"), ("nonce", PyValue.str "x")]) :=
  verify_sign_nonnumeric_timestamp idHash plainCfg 50 50 "nn"
    [("timestamp", PyValue.str "abc"), ("nonce", PyValue.str "x")] "s" "k" "sha256" 300 "abc"
    (by decide) (by decide) (by decide)

/-- C5 counterexample: requesting algorithm `sha1` raises, but only after the
timestamp and nonce were stamped into the caller's map — the map carried at
the raise differs from the input map, refuting "no partial computation". -/
theorem unsupported_algorithm_mutates_counterexample :
    generate_sign idHash plainCfg 1700000000 "aaaa1111"
        (PyObj.dict [("a", PyValue.int 1)]) "secret123" "sha1"
      = Except.error (EncryptError ("不支持的签名加密类型：" ++ "sha1" ++ "（支持：md5/sha256）"),
          PyObj.dict [("a", PyValue.int 1), ("timestamp", PyValue.int 1700000000),
            ("nonce", PyValue.str "aaaa1111")])
    ∧ ([("a", PyValue.int 1), ("timestamp", PyValue.int 1700000000),
        ("nonce", PyValue.str "aaaa1111")] : ParamMap) ≠ [("a", PyValue.int 1)] :=
  ⟨by decide, by decide⟩

/-- C5 (amended): an unsupported algorithm raises `EncryptError`, but the check
runs only after `timestamp` and `nonce` have been stamped into the caller's
map, which is therefore modified; no signature is produced. -/
theorem generate_sign_unsupported_algorithm (env : HashEnv) (cfg : SignConfig) (ts : Int)
    (nonce : String) (l : ParamMap) (key algo : String)
    (hm : strLower algo ≠ "md5") (hs : strLower algo ≠ "sha256")
    (hkey : (if key = "" then cfg.sign_key else key) ≠ "") :
    generate_sign env cfg ts nonce (PyObj.dict l) key algo
      = Except.error (EncryptError ("不支持的签名加密类型：" ++ algo ++ "（支持：md5/sha256）"),
          PyObj.dict (stampParams l ts nonce)) := by
  unfold generate_sign generate_sign_try
  simp [hkey, hm, hs, EncryptError]

/-- Witness for C5 (amended) at a concrete unsupported algorithm. -/
theorem generate_sign_unsupported_algorithm_witness :
    generate_sign idHash plainCfg 3 "zz" (PyObj.dict []) "kk" "sm3"
      = Except.error (EncryptError ("不支持的签名加密类型：" ++ "sm3" ++ "（支持：md5/sha256）"),
          PyObj.dict (stampParams [] 3 "zz")) :=
  generate_sign_unsupported_algorithm idHash plainCfg 3 "zz" [] "kk" "sm3"
    (by decide) (by decide) (by decide)

/-- C1: round-trip verification fails on the code.  `generate_sign` produces the
signature of the stamped map, but `verify_sign` — handed that very map and
signature immediately, with an unchanged clock — re-stamps a fresh nonce through
its inner `generate_sign` call and therefore compares against a different
canonical string: it returns `false`. -/
theorem round_trip_verification_fails :
    generate_sign idHash plainCfg 1700000000 "aaaa1111"
        (PyObj.dict [("user", PyValue.str "alice")]) "secret123" "sha256"
      = Except.ok ("nonce=aaaa1111&timestamp=1700000000&user=alice&signKey=secret123",
          PyObj.dict [("user", PyValue.str "alice"), ("timestamp", PyValue.int 1700000000),
            ("nonce", PyValue.str "aaaa1111")])
    ∧ verify_sign idHash plainCfg 1700000000 1700000000 "bbbb2222"
        [("user", PyValue.str "alice"), ("timestamp", PyValue.int 1700000000),
          ("nonce", PyValue.str "aaaa1111")]
        "nonce=aaaa1111&timestamp=1700000000&user=alice&signKey=secret123"
        "secret123" "sha256" 300
      = Except.ok (false, [("user", PyValue.str "alice"), ("timestamp", PyValue.int 1700000000),
          ("nonce", PyValue.str "bbbb2222")]) :=
  ⟨by decide, by decide⟩

/-- C4: `verify_sign` hands the caller's map itself (no copy) to
`generate_sign`, which re-stamps `timestamp` and `nonce` with the fresh
injected values: the map coming back differs from the caller's map, and its
nonce is the fresh one, not the one that was present. -/
theorem verify_sign_restamps_and_mutates :
    generate_sign idHash plainCfg 2000 "n1aaaa" (PyObj.dict [("id", PyValue.int 7)])
        "sk" "sha256"
      = Except.ok ("id=7&nonce=n1aaaa&timestamp=2000&signKey=sk",
          PyObj.dict [("id", PyValue.int 7), ("timestamp", PyValue.int 2000),
            ("nonce", PyValue.str "n1aaaa")])
    ∧ verify_sign idHash plainCfg 2000 2001 "n2bbbb"
        [("id", PyValue.int 7), ("timestamp", PyValue.int 2000), ("nonce", PyValue.str "n1aaaa")]
        "id=7&nonce=n1aaaa&timestamp=2000&signKey=sk" "sk" "sha256" 300
      = Except.ok (false, [("id", PyValue.int 7), ("timestamp", PyValue.int 2001),
          ("nonce", PyValue.str "n2bbbb")])
    ∧ ([("id", PyValue.int 7), ("timestamp", PyValue.int 2001),
        ("nonce", PyValue.str "n2bbbb")] : ParamMap)
      ≠ [("id", PyValue.int 7), ("timestamp", PyValue.int 2000), ("nonce", PyValue.str "n1aaaa")]
    ∧ dictGet [("id", PyValue.int 7), ("timestamp", PyValue.int 2001),
        ("nonce", PyValue.str "n2bbbb")] "nonce" = PyValue.str "n2bbbb" :=
  ⟨by decide, by decide, by decide, by decide⟩

/-- C3: the salt is NOT suppressed on the signing path.  `generate_sign` passes
`salt=""` to the hash helpers, but the helpers substitute the configured
default salt for any falsy salt argument, so the digest input is the canonical
string followed by the configured salt — with a non-empty configured salt this
differs from the canonical string alone. -/
theorem sign_salt_not_suppressed :
    (∀ (env : HashEnv) (cfg : SignConfig) (content : String),
        sha256_encrypt env cfg content "" = env.sha256Hex (content ++ cfg.sha256_salt))
    ∧ (∀ (env : HashEnv) (cfg : SignConfig) (content : String),
        md5_encrypt env cfg content "" = env.md5Hex (content ++ cfg.md5_salt))
    ∧ generate_sign idHash ⟨"", "", "SALT"⟩ 0 "n" (PyObj.dict []) "k" "sha256"
      = Except.ok ("nonce=n&timestamp=0&signKey=kSALT",
          PyObj.dict [("timestamp", PyValue.int 0), ("nonce", PyValue.str "n")])
    ∧ "nonce=n&timestamp=0&signKey=kSALT" ≠ "nonce=n&timestamp=0&signKey=k" :=
  ⟨fun env cfg content => by simp [sha256_encrypt],
   fun env cfg content => by simp [md5_encrypt],
   by decide, by decide⟩

end ApiAutoTest
